import Mathlib

/-!
Verification of the CHIP-8 interpreter core in src/src/cpu.cpp.

The C++ source is shallowly embedded: the mutable cpu object becomes the
structure Cpu, each C++ array becomes a total function out of Nat together
with the bound of the array, and the fetch-decode-execute routine
cpu::executeCycle becomes a function Cpu -> Option Cpu.  A result of none
models an out-of-range array access, which is undefined behavior in the
C++ source (the source performs no bounds checks of its own).  Machine
integers are modelled as Nat with an explicit % 2^w exactly at the
assignments where the C++ type would truncate or wrap; same-width copies
are left plain, since a uint8_t always holds a value below 256.
-/

namespace Chip8

/-- Modelled from the spec: the header cpu.h with the member declarations is
not part of the repository snapshot, so the array sizes and integer widths
are taken from the data-model table of the spec (section 3): 4096 bytes of
memory, sixteen 8-bit registers V0..VF, a call stack of capacity 16, a
64x32 one-bit framebuffer, 16 key slots and a 16-key previous snapshot,
8-bit timers, a 16-bit index register I and a 16-bit program counter.
The field rnd stands for the next value of the external random source
rand() used by opcode CXNN (no claim depends on it).  All other field
names follow the C++ members. -/
structure Cpu where
  memory : Nat → Nat
  V : Nat → Nat
  I : Nat
  pc : Nat
  sp : Nat
  stack : Nat → Nat
  gfx : Nat → Nat
  key : Nat → Nat
  prevKeys : Nat → Nat
  delay_timer : Nat
  sound_timer : Nat
  opcode : Nat
  rnd : Nat
  breakIPF : Bool
  draw : Bool
  running : Bool

/-- Pointwise update of an array modelled as a function: a[i] = v. -/
def upd (f : Nat → Nat) (i v : Nat) : Nat → Nat :=
  fun j => if j = i then v else f j

/-- The 80-byte font table chip8_fontset from cpu.cpp. -/
def chip8_fontset : List Nat :=
  [0xF0, 0x90, 0x90, 0x90, 0xF0,
   0x20, 0x60, 0x20, 0x20, 0x70,
   0xF0, 0x10, 0xF0, 0x80, 0xF0,
   0xF0, 0x10, 0xF0, 0x10, 0xF0,
   0x90, 0x90, 0xF0, 0x10, 0x10,
   0xF0, 0x80, 0xF0, 0x10, 0xF0,
   0xF0, 0x80, 0xF0, 0x90, 0xF0,
   0xF0, 0x10, 0x20, 0x40, 0x40,
   0xF0, 0x90, 0xF0, 0x90, 0xF0,
   0xF0, 0x90, 0xF0, 0x10, 0xF0,
   0xF0, 0x90, 0xF0, 0x90, 0x90,
   0xE0, 0x90, 0xE0, 0x90, 0xE0,
   0xF0, 0x80, 0x80, 0x80, 0xF0,
   0xE0, 0x90, 0x90, 0x90, 0xE0,
   0xF0, 0x80, 0xF0, 0x80, 0xF0,
   0xF0, 0x80, 0xF0, 0x80, 0x80]

/-- cpu::init from cpu.cpp: pc = 0x200, opcode = 0, I = 0, sp = 0, memory,
stack, gfx, key and prevKeys are zeroed, the 80 font bytes are copied to
addresses 0..79, breakIPF = false, draw = false, running = true.  The
memset-then-copy of the source is expressed as one function.  Note that
the source does not touch delay_timer, sound_timer or rnd. -/
def init (c : Cpu) : Cpu :=
  { c with
    pc := 0x200
    opcode := 0
    I := 0
    sp := 0
    memory := fun i => if i < 80 then chip8_fontset.getD i 0 else 0
    stack := fun _ => 0
    gfx := fun _ => 0
    key := fun _ => 0
    prevKeys := fun _ => 0
    breakIPF := false
    draw := false
    running := true }

/-- OP_X, i.e. (opcode & 0x0F00) >> 8. -/
def opX (op : Nat) : Nat := op / 256 % 16

/-- OP_Y, i.e. (opcode & 0x00F0) >> 4. -/
def opY (op : Nat) : Nat := op / 16 % 16

/-- OP_N, i.e. opcode & 0x000F. -/
def opN (op : Nat) : Nat := op % 16

/-- OP_NN, i.e. opcode & 0x00FF. -/
def opNN (op : Nat) : Nat := op % 256

/-- OP_NNN, i.e. opcode & 0x0FFF. -/
def opNNN (op : Nat) : Nat := op % 4096

/-- uint8_t subtraction a - b (wrapping modulo 256; b is reduced first so
the function is total on Nat, a no-op for byte values). -/
def sub8 (a b : Nat) : Nat := (a + 256 - b % 256) % 256

/-- Checked store memory[a] = v; an address outside the 4096-byte array is
undefined behavior in the source, modelled as none. -/
def writeMem (s : Cpu) (a v : Nat) : Option Cpu :=
  if a < 4096 then some { s with memory := upd s.memory a v } else none

/-- Checked read key[i]; an index outside the 16 key slots is undefined
behavior in the source, modelled as none. -/
def readKey (s : Cpu) (i : Nat) : Option Nat :=
  if i < 16 then some (s.key i) else none

/-- The inner loop of FX0A in cpu.cpp: for (i = 0; i < 16; i++) find the
first i with prevKeys[i] == 1 and key[i] == 0; fuel counts the remaining
iterations. -/
def findRelease (prev k : Nat → Nat) (i fuel : Nat) : Option Nat :=
  match fuel with
  | 0 => none
  | f + 1 => if prev i = 1 ∧ k i = 0 then some i else findRelease prev k (i + 1) f

/-- One bit of a DXYN sprite row (the inner loop body of the draw opcode):
acc carries the framebuffer and the collision flag V[0xF]; yh is the
unreduced target row y + height.  if (x + bit > 64) continue; then if the
sprite bit is set, drawX = (x+bit) % 64, drawY = yh % 32, the collision
flag is set when the pixel is already lit, and the pixel is XOR-toggled. -/
def drawBit (x yh pix : Nat) (acc : (Nat → Nat) × Nat) (b : Nat) : (Nat → Nat) × Nat :=
  if 64 < x + b then acc
  else if pix &&& (0x80 >>> b) ≠ 0 then
    let index := (x + b) % 64 + yh % 32 * 64
    (upd acc.1 index (acc.1 index ^^^ 1), if acc.1 index = 1 then 1 else acc.2)
  else acc

/-- The row loop of DXYN in cpu.cpp, over the list of row offsets
(List.range n for the opcode): if (y + height > 32) continue (the sprite
byte for a skipped row is never read); otherwise the row byte
memory[I + height] is read (none when I + height is out of the 4096-byte
array) and its 8 bits are drawn most-significant first. -/
def drawRows (mem : Nat → Nat) (I x y : Nat) (heights : List Nat)
    (gfx : Nat → Nat) (vf : Nat) : Option ((Nat → Nat) × Nat) :=
  match heights with
  | [] => some (gfx, vf)
  | h :: rest =>
    if 32 < y + h then drawRows mem I x y rest gfx vf
    else if I + h < 4096 then
      let p := (List.range 8).foldl (drawBit x (y + h) (mem (I + h))) (gfx, vf)
      drawRows mem I x y rest p.1 p.2
    else none

/-- The FX55 loop of cpu.cpp: for (i = 0; i <= X; i++) memory[I] = V[i];
I++ (the increment is the uint16_t wrap of the index register); count is
the number of iterations left, i the current register index. -/
def fx55Loop (s : Cpu) (i count : Nat) : Option Cpu :=
  match count with
  | 0 => some s
  | c + 1 =>
    match writeMem s s.I (s.V i) with
    | none => none
    | some s2 => fx55Loop { s2 with I := (s2.I + 1) % 65536 } (i + 1) c

/-- The FX65 loop of cpu.cpp: for (i = 0; i <= X; i++) V[i] = memory[I];
I++ (register indices 0..15 are in bounds by construction). -/
def fx65Loop (s : Cpu) (i count : Nat) : Option Cpu :=
  match count with
  | 0 => some s
  | c + 1 =>
    if s.I < 4096 then
      fx65Loop { s with V := upd s.V i (s.memory s.I), I := (s.I + 1) % 65536 } (i + 1) c
    else none

/-- The case (0x0000) sub-switch of cpu::executeCycle, dispatching on
opcode & 0x000F.  Low nibble 0x0 clears the screen and sets breakIPF (the
source matches any 0XY0 here, not only 00E0); low nibble 0xE is the
return: sp--; pc = stack[sp], with no underflow check, so sp == 0 wraps
the unsigned stack pointer and reads the stack array out of range
(undefined behavior, none); any other low nibble falls through the
sub-switch as a silent no-op. -/
def exec0 (s : Cpu) (op : Nat) : Option Cpu :=
  match op % 16 with
  | 0x0 => some { s with gfx := fun _ => 0, breakIPF := true }
  | 0xE =>
    if s.sp = 0 then none
    else if s.sp - 1 < 16 then
      some { s with sp := s.sp - 1, pc := s.stack (s.sp - 1) }
    else none
  | _ => some s

/-- The case (0x8000) sub-switch of cpu::executeCycle (dispatch on
opcode & 0x000F).  Assignments are sequential, so register aliasing
(X = Y, X = 0xF) behaves exactly as in the source: the nested upd with
the V[0xF] write outermost.  An unhandled low nibble (8, 9, A, B, C, D, F)
falls through the sub-switch as a silent no-op. -/
def exec8 (s : Cpu) (op : Nat) : Option Cpu :=
  let x := opX op
  let y := opY op
  match op % 16 with
  | 0x0 => some { s with V := upd s.V x (s.V y) }
  | 0x1 => some { s with V := upd (upd s.V x (s.V x ||| s.V y)) 0xF 0 }
  | 0x2 => some { s with V := upd (upd s.V x (s.V x &&& s.V y)) 0xF 0 }
  | 0x3 => some { s with V := upd (upd s.V x (s.V x ^^^ s.V y)) 0xF 0 }
  | 0x4 =>
    -- int x = V[X] + V[Y]; V[X] += V[Y] (uint8_t wrap); V[F] = (x > 255)
    some { s with V := upd (upd s.V x ((s.V x + s.V y) % 256)) 0xF
                    (if 255 < s.V x + s.V y then 1 else 0) }
  | 0x5 =>
    -- temp = (V[X] >= V[Y]); V[X] -= V[Y]; V[F] = temp
    some { s with V := upd (upd s.V x (sub8 (s.V x) (s.V y))) 0xF
                    (if s.V y ≤ s.V x then 1 else 0) }
  | 0x6 =>
    -- temp = V[X] & 1; V[X] = V[Y]; V[X] >>= 1; V[F] = temp
    some { s with V := upd (upd s.V x (s.V y / 2)) 0xF (s.V x % 2) }
  | 0x7 =>
    -- temp = (V[X] <= V[Y]); V[X] = V[Y] - V[X]; V[F] = temp
    some { s with V := upd (upd s.V x (sub8 (s.V y) (s.V x))) 0xF
                    (if s.V x ≤ s.V y then 1 else 0) }
  | 0xE =>
    -- V[X] = V[Y]; temp = (V[X] & 0x80) >> 7; V[X] <<= 1 (uint8_t wrap)
    some { s with V := upd (upd s.V x (s.V y * 2 % 256)) 0xF (s.V y / 128 % 2) }
  | _ => some s

/-- The case (0xE000) sub-switch of cpu::executeCycle (dispatch on
opcode & 0x00FF): EX9E and EXA1 index key[V[X]] with the full register
value and no bounds check, so V[X] >= 16 is an out-of-range access
(none); an unhandled low byte is a silent no-op. -/
def execE (s : Cpu) (op : Nat) : Option Cpu :=
  match op % 256 with
  | 0x9E =>
    match readKey s (s.V (opX op)) with
    | none => none
    | some k => if k ≠ 0 then some { s with pc := s.pc + 2 } else some s
  | 0xA1 =>
    match readKey s (s.V (opX op)) with
    | none => none
    | some k => if k = 0 then some { s with pc := s.pc + 2 } else some s
  | _ => some s

/-- The case (0xF000) sub-switch of cpu::executeCycle (dispatch on
opcode & 0x00FF).  FX0A rewinds pc by 2 when no key release is found;
FX1E wraps the 16-bit I; FX33 performs three unchecked byte stores at I,
I+1, I+2 (out of range is undefined behavior, none); FX55 and FX65 run
their loops with the post-increment of I.  An unhandled low byte is a
silent no-op. -/
def execF (s : Cpu) (op : Nat) : Option Cpu :=
  let x := opX op
  match op % 256 with
  | 0x0A =>
    match findRelease s.prevKeys s.key 0 16 with
    | some i => some { s with V := upd s.V x i, breakIPF := true }
    | none => some { s with pc := s.pc - 2 }
  | 0x07 => some { s with V := upd s.V x s.delay_timer }
  | 0x15 => some { s with delay_timer := s.V x }
  | 0x18 => some { s with sound_timer := s.V x }
  | 0x1E => some { s with I := (s.I + s.V x) % 65536 }
  | 0x29 => some { s with I := s.V x * 5 % 65536 }
  | 0x33 =>
    -- hundreds = n / 100; tens = n / 10 % 10; ones = n % 10
    if s.I + 2 < 4096 then
      let m := upd (upd (upd s.memory s.I (s.V x / 100)) (s.I + 1) (s.V x / 10 % 10))
        (s.I + 2) (s.V x % 10)
      some { s with memory := m }
    else none
  | 0x55 => fx55Loop s 0 (x + 1)
  | 0x65 => fx65Loop s 0 (x + 1)
  | _ => some s

/-- The decode-execute switch of cpu::executeCycle, dispatching on
opcode & 0xF000 (here op / 4096 % 16): all sixteen top nibbles have a
case, so the default (SDL_Log of an unrecognized opcode and
running = false) is unreachable for a 16-bit opcode; it is kept verbatim
as the final arm.  s is the post-fetch state (pc already advanced by 2). -/
def exec (s : Cpu) (op : Nat) : Option Cpu :=
  match op / 4096 % 16 with
  | 0x0 => exec0 s op
  | 0x1 => some { s with pc := opNNN op }
  | 0x2 =>
    -- stack[sp] = pc; sp++; pc = NNN, with no overflow check: sp >= 16
    -- writes the stack array out of range (undefined behavior, none)
    if s.sp < 16 then
      some { s with stack := upd s.stack s.sp s.pc, sp := s.sp + 1, pc := opNNN op }
    else none
  | 0x3 => if s.V (opX op) = opNN op then some { s with pc := s.pc + 2 } else some s
  | 0x4 => if s.V (opX op) ≠ opNN op then some { s with pc := s.pc + 2 } else some s
  | 0x5 => if s.V (opX op) = s.V (opY op) then some { s with pc := s.pc + 2 } else some s
  | 0x6 => some { s with V := upd s.V (opX op) (opNN op) }
  | 0x7 => some { s with V := upd s.V (opX op) ((s.V (opX op) + opNN op) % 256) }
  | 0x8 => exec8 s op
  | 0x9 => if s.V (opX op) ≠ s.V (opY op) then some { s with pc := s.pc + 2 } else some s
  | 0xA => some { s with I := opNNN op }
  | 0xB => some { s with pc := opNNN op + s.V 0 }
  | 0xC => some { s with V := upd s.V (opX op) (s.rnd % 256 &&& opNN op) }
  | 0xD =>
    -- x = V[X] % 64; y = V[Y] % 32; V[F] starts at 0 and becomes the
    -- collision flag threaded through the row loop
    match drawRows s.memory s.I (s.V (opX op) % 64) (s.V (opY op) % 32)
        (List.range (opN op)) s.gfx 0 with
    | none => none
    | some gv =>
      some { s with gfx := gv.1, V := upd s.V 0xF gv.2, breakIPF := true, draw := true }
  | 0xE => execE s op
  | 0xF => execF s op
  | _ => some { s with running := false }

/-- cpu::executeCycle from cpu.cpp: breakIPF = false; fetch
opcode = memory[pc] << 8 | memory[pc + 1] (for byte-valued memory the
shift-or is the product-sum written here); pc += 2; then decode and
execute.  A fetch from outside the 4096-byte memory is undefined
behavior (none). -/
def executeCycle (c : Cpu) : Option Cpu :=
  if c.pc + 1 < 4096 then
    let op := c.memory c.pc * 256 + c.memory (c.pc + 1)
    exec { c with breakIPF := false, opcode := op, pc := c.pc + 2 } op
  else none

/-- Result of a step projected to a register (for concrete evaluation). -/
def stepV (c : Cpu) (i : Nat) : Option Nat := (executeCycle c).map fun t => t.V i

/-- Result of a step projected to the program counter. -/
def stepPc (c : Cpu) : Option Nat := (executeCycle c).map fun t => t.pc

/-- Result of a step projected to the index register. -/
def stepI (c : Cpu) : Option Nat := (executeCycle c).map fun t => t.I

/-- Result of a step projected to the stack pointer. -/
def stepSp (c : Cpu) : Option Nat := (executeCycle c).map fun t => t.sp

/-- Result of a step projected to the running flag. -/
def stepRunning (c : Cpu) : Option Bool := (executeCycle c).map fun t => t.running

/-- Result of a step projected to one framebuffer cell. -/
def stepGfx (c : Cpu) (i : Nat) : Option Nat := (executeCycle c).map fun t => t.gfx i

/-! Dispatch lemmas: the fetch equation and one lemma per decode case the
claims need, each keyed by the arithmetic value of the switch scrutinee. -/

theorem executeCycle_eq (c : Cpu) (hpc : c.pc + 1 < 4096) :
    executeCycle c =
      exec { c with breakIPF := false,
                    opcode := c.memory c.pc * 256 + c.memory (c.pc + 1),
                    pc := c.pc + 2 }
        (c.memory c.pc * 256 + c.memory (c.pc + 1)) := by
  unfold executeCycle
  rw [if_pos hpc]

theorem exec_case7 (s : Cpu) (op : Nat) (h : op / 4096 % 16 = 7) :
    exec s op = some { s with V := upd s.V (opX op) ((s.V (opX op) + opNN op) % 256) } := by
  unfold exec
  rw [h]

theorem exec_case8 (s : Cpu) (op : Nat) (h : op / 4096 % 16 = 8) :
    exec s op = exec8 s op := by
  unfold exec
  rw [h]

theorem exec_caseE (s : Cpu) (op : Nat) (h : op / 4096 % 16 = 14) :
    exec s op = execE s op := by
  unfold exec
  rw [h]

theorem exec_caseF (s : Cpu) (op : Nat) (h : op / 4096 % 16 = 15) :
    exec s op = execF s op := by
  unfold exec
  rw [h]

theorem exec8_case4 (s : Cpu) (op : Nat) (h : op % 16 = 4) :
    exec8 s op = some { s with V := upd (upd s.V (opX op) ((s.V (opX op) + s.V (opY op)) % 256)) 0xF (if 255 < s.V (opX op) + s.V (opY op) then 1 else 0) } := by
  unfold exec8
  rw [h]

theorem exec8_case5 (s : Cpu) (op : Nat) (h : op % 16 = 5) :
    exec8 s op = some { s with V := upd (upd s.V (opX op) (sub8 (s.V (opX op)) (s.V (opY op)))) 0xF (if s.V (opY op) ≤ s.V (opX op) then 1 else 0) } := by
  unfold exec8
  rw [h]

theorem exec8_case6 (s : Cpu) (op : Nat) (h : op % 16 = 6) :
    exec8 s op = some { s with V := upd (upd s.V (opX op) (s.V (opY op) / 2)) 0xF (s.V (opX op) % 2) } := by
  unfold exec8
  rw [h]

theorem exec8_case7 (s : Cpu) (op : Nat) (h : op % 16 = 7) :
    exec8 s op = some { s with V := upd (upd s.V (opX op) (sub8 (s.V (opY op)) (s.V (opX op)))) 0xF (if s.V (opX op) ≤ s.V (opY op) then 1 else 0) } := by
  unfold exec8
  rw [h]

theorem execE_case9E (s : Cpu) (op : Nat) (h : op % 256 = 0x9E) :
    execE s op =
      match readKey s (s.V (opX op)) with
      | none => none
      | some k => if k ≠ 0 then some { s with pc := s.pc + 2 } else some s := by
  unfold execE
  rw [h]

theorem execE_caseA1 (s : Cpu) (op : Nat) (h : op % 256 = 0xA1) :
    execE s op =
      match readKey s (s.V (opX op)) with
      | none => none
      | some k => if k = 0 then some { s with pc := s.pc + 2 } else some s := by
  unfold execE
  rw [h]

theorem execF_case0A (s : Cpu) (op : Nat) (h : op % 256 = 0x0A) :
    execF s op =
      match findRelease s.prevKeys s.key 0 16 with
      | some i => some { s with V := upd s.V (opX op) i, breakIPF := true }
      | none => some { s with pc := s.pc - 2 } := by
  unfold execF
  rw [h]

theorem execF_case55 (s : Cpu) (op : Nat) (h : op % 256 = 0x55) :
    execF s op = fx55Loop s 0 (opX op + 1) := by
  unfold execF
  rw [h]

theorem execF_case65 (s : Cpu) (op : Nat) (h : op % 256 = 0x65) :
    execF s op = fx65Loop s 0 (opX op + 1) := by
  unfold execF
  rw [h]

/-! Loop lemmas: characterizations of the FX0A scan and the FX55/FX65
register-file loops. -/

theorem findRelease_none (prev k : Nat → Nat) :
    ∀ fuel i, (∀ j, i ≤ j → j < i + fuel → ¬(prev j = 1 ∧ k j = 0)) →
    findRelease prev k i fuel = none := by
  intro fuel
  induction fuel with
  | zero => intro i _; rfl
  | succ f ih =>
    intro i h
    unfold findRelease
    rw [if_neg (h i (Nat.le_refl i) (by omega))]
    exact ih (i + 1) fun j hj1 hj2 => h j (by omega) (by omega)

theorem findRelease_some (prev k : Nat → Nat) :
    ∀ fuel i j, i ≤ j → j < i + fuel → prev j = 1 → k j = 0 →
    (∀ l, i ≤ l → l < j → ¬(prev l = 1 ∧ k l = 0)) →
    findRelease prev k i fuel = some j := by
  intro fuel
  induction fuel with
  | zero => intro i j h1 h2 _ _ _; omega
  | succ f ih =>
    intro i j h1 h2 hp hk hmin
    unfold findRelease
    rcases Nat.eq_or_lt_of_le h1 with rfl | hij
    · rw [if_pos ⟨hp, hk⟩]
    · rw [if_neg (hmin i (Nat.le_refl i) hij)]
      exact ih (i + 1) j (by omega) (by omega) hp hk fun l hl1 hl2 => hmin l (by omega) hl2

theorem fx55Loop_step (s : Cpu) (i c : Nat) (h : s.I < 4096) :
    fx55Loop s i (c + 1) =
      fx55Loop { s with memory := upd s.memory s.I (s.V i), I := (s.I + 1) % 65536 }
        (i + 1) c := by
  conv_lhs => unfold fx55Loop
  unfold writeMem
  rw [if_pos h]

theorem fx65Loop_step (s : Cpu) (i c : Nat) (h : s.I < 4096) :
    fx65Loop s i (c + 1) =
      fx65Loop { s with V := upd s.V i (s.memory s.I), I := (s.I + 1) % 65536 }
        (i + 1) c := by
  conv_lhs => unfold fx65Loop
  rw [if_pos h]

theorem fx55Loop_spec :
    ∀ count i (s : Cpu), s.I + count ≤ 4096 →
    ∃ t : Cpu, fx55Loop s i count = some t ∧
      t.I = s.I + count ∧ t.pc = s.pc ∧ t.V = s.V ∧
      (∀ a, a < s.I ∨ s.I + count ≤ a → t.memory a = s.memory a) ∧
      (∀ k, k < count → t.memory (s.I + k) = s.V (i + k)) := by
  intro count
  induction count with
  | zero =>
    intro i s _
    exact ⟨s, rfl, by omega, rfl, rfl, fun a _ => rfl, fun k hk => absurd hk (by omega)⟩
  | succ c ih =>
    intro i s h
    have hI : s.I < 4096 := by omega
    rw [fx55Loop_step s i c hI]
    set s3 : Cpu :=
      { s with memory := upd s.memory s.I (s.V i), I := (s.I + 1) % 65536 } with hs3
    have hI3 : s3.I = s.I + 1 := Nat.mod_eq_of_lt (by omega)
    obtain ⟨t, ht, htI, htpc, htV, htout, htin⟩ := ih (i + 1) s3 (by omega)
    refine ⟨t, ht, by omega, htpc, htV, ?_, ?_⟩
    · intro a ha
      rw [htout a (by omega)]
      simp only [hs3, upd]
      rw [if_neg (by omega)]
    · intro k hk
      rcases Nat.eq_zero_or_pos k with rfl | hkpos
      · rw [htout (s.I + 0) (by omega)]
        simp [hs3, upd]
      · have := htin (k - 1) (by omega)
        rw [hI3] at this
        have he : s.I + 1 + (k - 1) = s.I + k := by omega
        have he2 : i + 1 + (k - 1) = i + k := by omega
        rw [he, he2] at this
        simpa [hs3] using this

theorem fx65Loop_spec :
    ∀ count i (s : Cpu), s.I + count ≤ 4096 →
    ∃ t : Cpu, fx65Loop s i count = some t ∧
      t.I = s.I + count ∧ t.pc = s.pc ∧ t.memory = s.memory ∧
      (∀ r, r < i → t.V r = s.V r) ∧
      (∀ k, k < count → t.V (i + k) = s.memory (s.I + k)) := by
  intro count
  induction count with
  | zero =>
    intro i s _
    exact ⟨s, rfl, by omega, rfl, rfl, fun r _ => rfl, fun k hk => absurd hk (by omega)⟩
  | succ c ih =>
    intro i s h
    have hI : s.I < 4096 := by omega
    rw [fx65Loop_step s i c hI]
    set s3 : Cpu :=
      { s with V := upd s.V i (s.memory s.I), I := (s.I + 1) % 65536 } with hs3
    have hI3 : s3.I = s.I + 1 := Nat.mod_eq_of_lt (by omega)
    obtain ⟨t, ht, htI, htpc, htmem, htlow, htin⟩ := ih (i + 1) s3 (by omega)
    refine ⟨t, ht, by omega, htpc, htmem, ?_, ?_⟩
    · intro r hr
      rw [htlow r (by omega)]
      simp only [hs3, upd]
      rw [if_neg (by omega)]
    · intro k hk
      rcases Nat.eq_zero_or_pos k with rfl | hkpos
      · rw [Nat.add_zero, htlow i (by omega)]
        simp [hs3, upd]
      · have := htin (k - 1) (by omega)
        rw [hI3] at this
        have he : s.I + 1 + (k - 1) = s.I + k := by omega
        have he2 : i + 1 + (k - 1) = i + k := by omega
        rw [he, he2] at this
        simpa [hs3] using this

/-- An all-zero machine state used to build the concrete states below. -/
def base : Cpu :=
  { memory := fun _ => 0
    V := fun _ => 0
    I := 0
    pc := 0x200
    sp := 0
    stack := fun _ => 0
    gfx := fun _ => 0
    key := fun _ => 0
    prevKeys := fun _ => 0
    delay_timer := 0
    sound_timer := 0
    opcode := 0
    rnd := 0
    breakIPF := false
    draw := false
    running := true }


/-! Concrete states for the evaluation theorems.  Each sets up one fetched
opcode at pc = 0x200 together with the registers the scenario needs. -/

/-- Opcode 0x8008 (family 0x8, low nibble 8: no case in the sub-switch). -/
def sC1 : Cpu :=
  { base with memory := fun a => if a = 0x200 then 0x80 else if a = 0x201 then 0x08 else 0 }

/-- FX33 with I = 0xFFE: digit stores at 0xFFE, 0xFFF and 0x1000. -/
def sC2a : Cpu :=
  { base with
    memory := fun a => if a = 0x200 then 0xF0 else if a = 0x201 then 0x33 else 0
    I := 0xFFE }

/-- DXYN (D012, two rows) with I = 0xFFF: the second row byte is read from
address 0x1000. -/
def sC2b : Cpu :=
  { base with
    memory := fun a => if a = 0x200 then 0xD0 else if a = 0x201 then 0x12 else 0
    I := 0xFFF }

/-- FX55 (F155, stores V0 and V1) with I = 0xFFF: the second store hits
address 0x1000. -/
def sC2c : Cpu :=
  { base with
    memory := fun a => if a = 0x200 then 0xF1 else if a = 0x201 then 0x55 else 0
    I := 0xFFF }

/-- FX65 (F165, loads V0 and V1) with I = 0xFFF: the second load reads
address 0x1000. -/
def sC2d : Cpu :=
  { base with
    memory := fun a => if a = 0x200 then 0xF1 else if a = 0x201 then 0x65 else 0
    I := 0xFFF }

/-- 00EE with sp = 0: return from subroutine on an empty stack. -/
def sC3a : Cpu :=
  { base with memory := fun a => if a = 0x200 then 0x00 else if a = 0x201 then 0xEE else 0 }

/-- 2NNN (here 2100) with sp = 16: a call with the 16-slot stack full. -/
def sC3b : Cpu :=
  { base with
    memory := fun a => if a = 0x200 then 0x21 else if a = 0x201 then 0x00 else 0
    sp := 16 }

/-- 8XY6 as 0x8106 with V1 = 1 and V0 = 0: the claim predicts
VF = low bit of V[Y] = V0 & 1 = 0. -/
def sC4 : Cpu :=
  { base with
    memory := fun a => if a = 0x200 then 0x81 else if a = 0x201 then 0x06 else 0
    V := fun i => if i = 1 then 1 else 0 }

/-- A state with nonzero timers, fed to the initializer. -/
def sC6 : Cpu := { base with delay_timer := 5, sound_timer := 7 }

/-! The claims. -/

/-- C1: the claim says every unrecognized opcode halts execution and
reports UnknownOpcode.  Evaluating the step function at the unrecognized
opcode 0x8008 (top nibble 0x8, sub-nibble 8, which no case of the 0x8000
sub-switch handles) shows the code instead performs a silent no-op: the
machine keeps running (the halt flag running stays true, and no
UnknownOpcode report exists anywhere in the source) and pc advances by 2
as for any executed instruction, with registers, index register and stack
pointer untouched. -/
theorem C1_silent_noop_eval :
    stepRunning sC1 = some true ∧ stepPc sC1 = some 0x202 ∧
      stepSp sC1 = some 0 ∧ stepI sC1 = some 0 ∧ stepV sC1 0 = some 0 := by
  refine ⟨rfl, rfl, rfl, rfl, rfl⟩

/-- C2: the claim says an access through I beyond 0xFFF reports
MemoryOutOfBounds instead of being performed.  Evaluating the step
function shows the code has no such guard: for each of FX33, DXYN, FX55
and FX65 set up to touch address 0x1000, the embedded step ends in none,
the model of the unchecked out-of-range array access (undefined behavior)
of the source; no MemoryOutOfBounds value exists anywhere in the source. -/
theorem C2_unchecked_access_eval :
    executeCycle sC2a = none ∧ executeCycle sC2b = none ∧
      executeCycle sC2c = none ∧ executeCycle sC2d = none := by
  refine ⟨rfl, rfl, rfl, rfl⟩

/-- C3: the claim says a call on a full stack reports StackOverflow and a
return on an empty stack reports StackUnderflow.  Evaluating the step
function shows the code checks neither: 00EE with sp = 0 decrements the
unsigned stack pointer past zero and reads the stack array out of range,
and 2NNN with sp = 16 writes stack[16] past the 16-slot array; both are
the unchecked undefined behavior of the source (none), with no error
report. -/
theorem C3_stack_unchecked_eval :
    executeCycle sC3a = none ∧ executeCycle sC3b = none := by
  refine ⟨rfl, rfl⟩

/-- C4 counterexample: executing 0x8106 from a state with V1 = 1, V0 = 0
leaves VF = 1, while the claim (VF = low bit of the pre-execution V[Y],
here V0) predicts VF = 0: the source takes the flag bit from the old V[X]
before overwriting it with V[Y]. -/
theorem C4_counterexample :
    sC4.V 0 = 0 ∧ sC4.V 1 = 1 ∧ stepV sC4 0xF = some 1 := by
  refine ⟨rfl, rfl, rfl⟩

/-- C4 amended: for every state and every opcode 8XY6, after execution VF
equals the low bit of the pre-execution V[X] (not V[Y]), and for
X different from 0xF, V[X] equals the pre-execution V[Y] shifted right by
one bit. -/
theorem C4_amended (s : Cpu) (X Y : Nat) (hX : X < 16) (hY : Y < 16)
    (hpc : s.pc + 1 < 4096)
    (hhi : s.memory s.pc = 0x80 + X) (hlo : s.memory (s.pc + 1) = Y * 16 + 6) :
    ∃ t, executeCycle s = some t ∧
      t.V 0xF = s.V X % 2 ∧
      (X ≠ 0xF → t.V X = s.V Y / 2) := by
  rw [executeCycle_eq s hpc, hhi, hlo]
  rw [exec_case8 _ _ (by omega), exec8_case6 _ _ (by omega)]
  have hx : opX ((0x80 + X) * 256 + (Y * 16 + 6)) = X := by unfold opX; omega
  have hy : opY ((0x80 + X) * 256 + (Y * 16 + 6)) = Y := by unfold opY; omega
  rw [hx, hy]
  refine ⟨_, rfl, ?_, ?_⟩
  · simp [upd]
  · intro hXF
    simp [upd, hXF]

/-- C4 amended, witness: the amended theorem applied at the concrete state
of the counterexample (X = 1, Y = 0, V1 = 1, V0 = 0). -/
theorem C4_amended_witness :
    ∃ t, executeCycle sC4 = some t ∧
      t.V 0xF = sC4.V 1 % 2 ∧ (1 ≠ 0xF → t.V 1 = sC4.V 0 / 2) :=
  C4_amended sC4 1 0 (by decide) (by decide) (by decide) (by decide) (by decide)

/-- C6 counterexample: running the initializer on a state whose timers
hold 5 and 7 leaves both timers unchanged (5 and 7, not 0), against the
claim that the initializer clears the delay and sound timers. -/
theorem C6_counterexample :
    (init sC6).delay_timer = 5 ∧ (init sC6).sound_timer = 7 := by
  refine ⟨rfl, rfl⟩

/-- C6 amended: after the initializer runs, PC = 0x200, the 80 font bytes
occupy addresses 0 through 79, all other memory, the stack, the
framebuffer and both key matrices are zero, the stack pointer, index
register and current opcode are zero, the redraw and pause flags are
cleared and the running flag set; the delay and sound timers are left
unchanged (the initializer does not touch them).  The initializer is a
total function with no error conditions. -/
theorem C6_amended (c : Cpu) :
    (init c).pc = 0x200 ∧
    (∀ i, i < 80 → (init c).memory i = chip8_fontset.getD i 0) ∧
    (∀ i, 80 ≤ i → (init c).memory i = 0) ∧
    (∀ i, (init c).stack i = 0) ∧
    (∀ i, (init c).gfx i = 0) ∧
    (∀ i, (init c).key i = 0) ∧
    (∀ i, (init c).prevKeys i = 0) ∧
    (init c).sp = 0 ∧ (init c).I = 0 ∧ (init c).opcode = 0 ∧
    (init c).breakIPF = false ∧ (init c).draw = false ∧ (init c).running = true ∧
    (init c).delay_timer = c.delay_timer ∧ (init c).sound_timer = c.sound_timer := by
  refine ⟨rfl, ?_, ?_, fun i => rfl, fun i => rfl, fun i => rfl, fun i => rfl,
    rfl, rfl, rfl, rfl, rfl, rfl, rfl, rfl⟩
  · intro i hi
    simp only [init]
    rw [if_pos hi]
  · intro i hi
    simp only [init]
    rw [if_neg (by omega)]

/-- C6 amended, witness: the amended theorem applied at the concrete state
with timers 5 and 7, evaluated at a font address and a cleared address. -/
theorem C6_amended_witness :
    (init sC6).memory 0 = chip8_fontset.getD 0 0 ∧ (init sC6).memory 100 = 0 ∧
      (init sC6).delay_timer = sC6.delay_timer :=
  ⟨(C6_amended sC6).2.1 0 (by decide), (C6_amended sC6).2.2.1 100 (by decide),
    (C6_amended sC6).2.2.2.2.2.2.2.2.2.2.2.2.2.1⟩

/-- DXYN (D012) at x = 0, y = 31, n = 2 with sprite rows 0x00 and 0x80 at
I = 0x300: the second row lands at row index 31 + 1 = 32 exactly. -/
def sC5a : Cpu :=
  { base with
    memory := fun a => if a = 0x200 then 0xD0 else if a = 0x201 then 0x12 else
      if a = 0x301 then 0x80 else 0
    V := fun i => if i = 1 then 31 else 0
    I := 0x300 }

/-- DXYN (D011) at x = 57, y = 0, n = 1 with sprite row 0x01 at I = 0x300:
the eighth sprite bit lands at column index 57 + 7 = 64 exactly. -/
def sC5b : Cpu :=
  { base with
    memory := fun a => if a = 0x200 then 0xD0 else if a = 0x201 then 0x11 else
      if a = 0x300 then 0x01 else 0
    V := fun i => if i = 0 then 57 else 0
    I := 0x300 }

/-- C5 counterexample: the claim says a sprite row landing at row index
exactly 32 is skipped and a sprite bit landing at column index exactly 64
is skipped, so in both states below pixel (0,0), initially unlit, would
stay 0.  Evaluating the step function shows both are instead drawn
wrapped: the row lands on row 0 and the bit on column 0, lighting pixel
(0,0).  The source skips only strict overshoot (y + row > 32,
x + bit > 64), so overshoot by exactly one wraps via the mod reduction. -/
theorem C5_counterexample :
    sC5a.gfx 0 = 0 ∧ stepGfx sC5a 0 = some 1 ∧
      sC5b.gfx 0 = 0 ∧ stepGfx sC5b 0 = some 1 := by
  refine ⟨rfl, rfl, rfl, rfl⟩

/-- C5 amended: in the DXYN draw loops, (1) a sprite row whose target row
index y + row exceeds 32 is skipped entirely (its sprite byte is not even
read); (2) a sprite bit whose target column x + bit exceeds 64 is
skipped; (3) a row landing at exactly 32 is not skipped: its 8 bits are
drawn with the unreduced target row 32 (hence, by (4), wrapped to row 0);
(4) every drawn bit toggles the pixel at index
(x + bit) % 64 + (y + row) % 32 * 64, which is strictly inside the 64x32
grid, and a column landing at exactly 64 is wrapped to column 0. -/
theorem C5_amended :
    (∀ mem I x y h rest gfx vf, 32 < y + h →
      drawRows mem I x y (h :: rest) gfx vf = drawRows mem I x y rest gfx vf) ∧
    (∀ x yh pix acc b, 64 < x + b → drawBit x yh pix acc b = acc) ∧
    (∀ mem I x y h rest gfx vf, y + h = 32 → I + h < 4096 →
      drawRows mem I x y (h :: rest) gfx vf =
        drawRows mem I x y rest
          ((List.range 8).foldl (drawBit x (y + h) (mem (I + h))) (gfx, vf)).1
          ((List.range 8).foldl (drawBit x (y + h) (mem (I + h))) (gfx, vf)).2) ∧
    (∀ x yh pix g vf b, ¬ 64 < x + b → pix &&& (0x80 >>> b) ≠ 0 →
      drawBit x yh pix (g, vf) b =
        (upd g ((x + b) % 64 + yh % 32 * 64) (g ((x + b) % 64 + yh % 32 * 64) ^^^ 1),
          if g ((x + b) % 64 + yh % 32 * 64) = 1 then 1 else vf) ∧
        (x + b) % 64 + yh % 32 * 64 < 2048 ∧ (x + b = 64 → (x + b) % 64 = 0)) := by
  refine ⟨?_, ?_, ?_, ?_⟩
  · intro mem I x y h rest gfx vf hrow
    conv_lhs => unfold drawRows
    rw [if_pos hrow]
  · intro x yh pix acc b hcol
    unfold drawBit
    rw [if_pos hcol]
  · intro mem I x y h rest gfx vf hrow hmem
    conv_lhs => unfold drawRows
    rw [if_neg (by omega), if_pos hmem]
  · intro x yh pix g vf b hcol hbit
    refine ⟨?_, by omega, by omega⟩
    unfold drawBit
    rw [if_neg hcol, if_pos hbit]

/-- C5 amended, witness: conjunct (1) applied to a one-row sprite list
with y + row = 31 + 2 = 33 > 32, and conjunct (2) applied at
x + bit = 60 + 6 = 66 > 64. -/
theorem C5_amended_witness :
    drawRows (fun _ => 0) 768 0 31 [2] (fun _ => 0) 0 =
        drawRows (fun _ => 0) 768 0 31 [] (fun _ => 0) 0 ∧
      drawBit 60 0 255 (fun _ => (0 : Nat), 0) 6 = (fun _ => (0 : Nat), 0) :=
  ⟨C5_amended.1 (fun _ => 0) 768 0 31 2 [] (fun _ => 0) 0 (by decide),
    C5_amended.2.1 60 0 255 (fun _ => (0 : Nat), 0) 6 (by decide)⟩

/-- FX0A (F30A) with no key transition recorded: prevKeys and key all 0. -/
def sC7a : Cpu :=
  { base with memory := fun a => if a = 0x200 then 0xF3 else if a = 0x201 then 0x0A else 0 }

/-- FX0A (F30A) with key 4 recorded as pressed in prevKeys and released in
the live matrix. -/
def sC7b : Cpu :=
  { sC7a with prevKeys := fun i => if i = 4 then 1 else 0 }

/-- C7: in a state about to execute FX0A, if no key has a press-to-release
transition between the prevKeys snapshot and the live key matrix, the step
leaves PC unchanged (the pc advanced at fetch is rewound by 2) and the
whole register file untouched; if key j has such a transition (and no
smaller index does, matching the ascending scan of the source), the step
stores j into V[X], sets the pause flag breakIPF and leaves PC advanced by
exactly one instruction (pc + 2). -/
theorem C7_keywait (s : Cpu) (X : Nat) (hX : X < 16) (hpc : s.pc + 1 < 4096)
    (hhi : s.memory s.pc = 0xF0 + X) (hlo : s.memory (s.pc + 1) = 0x0A) :
    ((∀ i, i < 16 → ¬(s.prevKeys i = 1 ∧ s.key i = 0)) →
      ∃ t, executeCycle s = some t ∧ t.pc = s.pc ∧ t.V = s.V) ∧
    (∀ j, j < 16 → s.prevKeys j = 1 → s.key j = 0 →
      (∀ i, i < j → ¬(s.prevKeys i = 1 ∧ s.key i = 0)) →
      ∃ t, executeCycle s = some t ∧ t.pc = s.pc + 2 ∧ t.V X = j ∧ t.breakIPF = true) := by
  constructor
  · intro hnone
    rw [executeCycle_eq s hpc, hhi, hlo, exec_caseF _ _ (by omega),
      execF_case0A _ _ (by omega)]
    rw [findRelease_none s.prevKeys s.key 16 0 fun j h1 h2 => hnone j (by omega)]
    refine ⟨_, rfl, ?_, rfl⟩
    show s.pc + 2 - 2 = s.pc
    omega
  · intro j hj hpv hkey hmin
    rw [executeCycle_eq s hpc, hhi, hlo, exec_caseF _ _ (by omega),
      execF_case0A _ _ (by omega)]
    rw [findRelease_some s.prevKeys s.key 16 0 j (Nat.zero_le j) (by omega) hpv hkey
      fun l hl1 hl2 => hmin l hl2]
    have hx : opX ((0xF0 + X) * 256 + 0x0A) = X := by unfold opX; omega
    rw [hx]
    refine ⟨_, rfl, rfl, ?_, rfl⟩
    simp [upd]

/-- C7, witness: the waiting branch applied at the all-zero key state, and
the release branch applied at the state where key 4 was pressed and is now
released (X = 3). -/
theorem C7_keywait_witness :
    (∃ t, executeCycle sC7a = some t ∧ t.pc = sC7a.pc ∧ t.V = sC7a.V) ∧
      (∃ t, executeCycle sC7b = some t ∧ t.pc = sC7b.pc + 2 ∧ t.V 3 = 4 ∧
        t.breakIPF = true) :=
  ⟨(C7_keywait sC7a 3 (by decide) (by decide) (by decide) (by decide)).1
      (by decide),
    (C7_keywait sC7b 3 (by decide) (by decide) (by decide) (by decide)).2 4
      (by decide) (by decide) (by decide) (by decide)⟩

/-- 7XNN as 0x7F01 (X = 0xF): the add targets the flag register itself. -/
def sC8 : Cpu :=
  { base with memory := fun a => if a = 0x200 then 0x7F else if a = 0x201 then 0x01 else 0 }

/-- 8XY5 as 0x8015 with V0 = V1 = 0 (the equal-operand edge case). -/
def sC8b : Cpu :=
  { base with memory := fun a => if a = 0x200 then 0x80 else if a = 0x201 then 0x15 else 0 }

/-- C8 counterexample: the claim says 7XNN leaves VF unchanged, but for
X = 0xF the destination register is VF itself: executing 0x7F01 from
VF = 0 leaves VF = 1. -/
theorem C8_counterexample :
    sC8.V 0xF = 0 ∧ stepV sC8 0xF = some 1 := by
  refine ⟨rfl, rfl⟩

/-- C8 amended: the 8-bit arithmetic opcodes wrap modulo 256 and set the
carry/borrow flag exactly as specified, with the X = 0xF alias excluded
where the destination register is VF itself: (1) 7XNN stores
(V[X] + NN) % 256 in V[X] and, for X different from 0xF, leaves VF
unchanged; (2) 8XY4 sets VF = 1 exactly when V[X] + V[Y] > 255 (for every
X, Y) and, for X different from 0xF, stores the sum modulo 256; (3) 8XY5
sets VF = 1 exactly when V[X] >= V[Y] (so equal operands, in particular
V[X] = V[Y] = 0, give VF = 1) and, for X different from 0xF, stores the
wrapped difference (V[X] + 256 - V[Y]) % 256, which is 0 for equal
operands; (4) 8XY7 sets VF = 1 exactly when V[Y] >= V[X] and, for X
different from 0xF, stores (V[Y] + 256 - V[X]) % 256. -/
theorem C8_amended :
    (∀ (s : Cpu) (X NN : Nat), X < 16 → NN < 256 → s.pc + 1 < 4096 →
      s.memory s.pc = 0x70 + X → s.memory (s.pc + 1) = NN →
      ∃ t, executeCycle s = some t ∧ t.V X = (s.V X + NN) % 256 ∧
        (X ≠ 0xF → t.V 0xF = s.V 0xF)) ∧
    (∀ (s : Cpu) (X Y : Nat), X < 16 → Y < 16 → s.pc + 1 < 4096 →
      s.memory s.pc = 0x80 + X → s.memory (s.pc + 1) = Y * 16 + 4 →
      ∃ t, executeCycle s = some t ∧
        t.V 0xF = (if 255 < s.V X + s.V Y then 1 else 0) ∧
        (X ≠ 0xF → t.V X = (s.V X + s.V Y) % 256)) ∧
    (∀ (s : Cpu) (X Y : Nat), X < 16 → Y < 16 → s.pc + 1 < 4096 →
      s.memory s.pc = 0x80 + X → s.memory (s.pc + 1) = Y * 16 + 5 →
      s.V X < 256 → s.V Y < 256 →
      ∃ t, executeCycle s = some t ∧
        t.V 0xF = (if s.V Y ≤ s.V X then 1 else 0) ∧
        (X ≠ 0xF → t.V X = (s.V X + 256 - s.V Y) % 256) ∧
        (s.V X = s.V Y → t.V 0xF = 1 ∧ (X ≠ 0xF → t.V X = 0))) ∧
    (∀ (s : Cpu) (X Y : Nat), X < 16 → Y < 16 → s.pc + 1 < 4096 →
      s.memory s.pc = 0x80 + X → s.memory (s.pc + 1) = Y * 16 + 7 →
      s.V X < 256 → s.V Y < 256 →
      ∃ t, executeCycle s = some t ∧
        t.V 0xF = (if s.V X ≤ s.V Y then 1 else 0) ∧
        (X ≠ 0xF → t.V X = (s.V Y + 256 - s.V X) % 256)) := by
  refine ⟨?_, ?_, ?_, ?_⟩
  · intro s X NN hX hNN hpc hhi hlo
    rw [executeCycle_eq s hpc, hhi, hlo, exec_case7 _ _ (by omega)]
    have hx : opX ((0x70 + X) * 256 + NN) = X := by unfold opX; omega
    have hnn : opNN ((0x70 + X) * 256 + NN) = NN := by unfold opNN; omega
    rw [hx, hnn]
    refine ⟨_, rfl, ?_, ?_⟩
    · simp [upd]
    · intro hXF
      simp only [upd]
      rw [if_neg (by omega)]
  · intro s X Y hX hY hpc hhi hlo
    rw [executeCycle_eq s hpc, hhi, hlo, exec_case8 _ _ (by omega),
      exec8_case4 _ _ (by omega)]
    have hx : opX ((0x80 + X) * 256 + (Y * 16 + 4)) = X := by unfold opX; omega
    have hy : opY ((0x80 + X) * 256 + (Y * 16 + 4)) = Y := by unfold opY; omega
    rw [hx, hy]
    refine ⟨_, rfl, ?_, ?_⟩
    · simp [upd]
    · intro hXF
      simp only [upd]
      rw [if_neg (show ¬X = 15 by omega), if_pos trivial]
  · intro s X Y hX hY hpc hhi hlo hbx hby
    rw [executeCycle_eq s hpc, hhi, hlo, exec_case8 _ _ (by omega),
      exec8_case5 _ _ (by omega)]
    have hx : opX ((0x80 + X) * 256 + (Y * 16 + 5)) = X := by unfold opX; omega
    have hy : opY ((0x80 + X) * 256 + (Y * 16 + 5)) = Y := by unfold opY; omega
    rw [hx, hy]
    refine ⟨_, rfl, ?_, ?_, ?_⟩
    · simp [upd]
    · intro hXF
      simp only [upd]
      rw [if_neg (show ¬X = 15 by omega), if_pos trivial]
      unfold sub8
      omega
    · intro heq
      refine ⟨?_, ?_⟩
      · simp [upd, heq]
      · intro hXF
        simp only [upd]
        rw [if_neg (show ¬X = 15 by omega), if_pos trivial, heq]
        unfold sub8
        omega
  · intro s X Y hX hY hpc hhi hlo hbx hby
    rw [executeCycle_eq s hpc, hhi, hlo, exec_case8 _ _ (by omega),
      exec8_case7 _ _ (by omega)]
    have hx : opX ((0x80 + X) * 256 + (Y * 16 + 7)) = X := by unfold opX; omega
    have hy : opY ((0x80 + X) * 256 + (Y * 16 + 7)) = Y := by unfold opY; omega
    rw [hx, hy]
    refine ⟨_, rfl, ?_, ?_⟩
    · simp [upd]
    · intro hXF
      simp only [upd]
      rw [if_neg (show ¬X = 15 by omega), if_pos trivial]
      unfold sub8
      omega

/-- C8 amended, witness: part (1) applied at the counterexample state
0x7F01 (showing the wrapped sum lands in VF when X = 0xF), and part (3)
applied at a state executing 0x8015 with V0 = V1 = 0. -/
theorem C8_amended_witness :
    (∃ t, executeCycle sC8 = some t ∧ t.V 0xF = (sC8.V 0xF + 1) % 256 ∧
      (0xF ≠ 0xF → t.V 0xF = sC8.V 0xF)) ∧
    (∃ t, executeCycle sC8b = some t ∧
      t.V 0xF = (if sC8b.V 1 ≤ sC8b.V 0 then 1 else 0) ∧
      (0 ≠ 0xF → t.V 0 = (sC8b.V 0 + 256 - sC8b.V 1) % 256) ∧
      (sC8b.V 0 = sC8b.V 1 → t.V 0xF = 1 ∧ (0 ≠ 0xF → t.V 0 = 0))) :=
  ⟨C8_amended.1 sC8 0xF 1 (by decide) (by decide) (by decide) (by decide) (by decide),
    C8_amended.2.2.1 sC8b 0 1 (by decide) (by decide) (by decide) (by decide)
      (by decide) (by decide) (by decide)⟩

/-! Branch lemmas for the EX9E / EXA1 key-skip opcodes. -/

theorem execE_9E_oob (s : Cpu) (op x : Nat) (h : op % 256 = 0x9E)
    (hxx : opX op = x) (hv : 16 ≤ s.V x) : execE s op = none := by
  subst hxx
  unfold execE
  rw [h]
  unfold readKey
  rw [if_neg (by omega)]

theorem execE_9E_inb (s : Cpu) (op x : Nat) (h : op % 256 = 0x9E)
    (hxx : opX op = x) (hv : s.V x < 16) :
    execE s op = if s.key (s.V x) ≠ 0 then some { s with pc := s.pc + 2 } else some s := by
  subst hxx
  unfold execE
  rw [h]
  unfold readKey
  rw [if_pos hv]

theorem execE_A1_oob (s : Cpu) (op x : Nat) (h : op % 256 = 0xA1)
    (hxx : opX op = x) (hv : 16 ≤ s.V x) : execE s op = none := by
  subst hxx
  unfold execE
  rw [h]
  unfold readKey
  rw [if_neg (by omega)]

theorem execE_A1_inb (s : Cpu) (op x : Nat) (h : op % 256 = 0xA1)
    (hxx : opX op = x) (hv : s.V x < 16) :
    execE s op = if s.key (s.V x) = 0 then some { s with pc := s.pc + 2 } else some s := by
  subst hxx
  unfold execE
  rw [h]
  unfold readKey
  rw [if_pos hv]

/-- A state about to execute EX9E (0xE09E) with V0 = 3 and key 3 held. -/
def sC10a : Cpu :=
  { base with
    memory := fun a => if a = 0x200 then 0xE0 else if a = 0x201 then 0x9E else 0
    V := fun i => if i = 0 then 3 else 0
    key := fun i => if i = 3 then 1 else 0 }

/-- The same EX9E state with the out-of-range key index V0 = 16. -/
def sC10b : Cpu :=
  { base with
    memory := fun a => if a = 0x200 then 0xE0 else if a = 0x201 then 0x9E else 0
    V := fun i => if i = 0 then 16 else 0 }

/-- C10: EX9E and EXA1 index the 16-entry key matrix directly with the full
8-bit value of V[X] and no bounds check, so the access is well-defined
exactly under the precondition V[X] <= 15: for every state about to
execute EX9E or EXA1, if V[X] < 16 the step is defined (the key access is
in bounds and the step yields a successor state, advancing pc by 2 or 4
according to the key), while if V[X] >= 16 the step is the out-of-range
array access none. -/
theorem C10_keybounds (s : Cpu) (X : Nat) (hX : X < 16) (hpc : s.pc + 1 < 4096)
    (hhi : s.memory s.pc = 0xE0 + X)
    (hlo : s.memory (s.pc + 1) = 0x9E ∨ s.memory (s.pc + 1) = 0xA1) :
    (s.V X < 16 →
      ∃ t, executeCycle s = some t ∧ (t.pc = s.pc + 4 ∨ t.pc = s.pc + 2)) ∧
    (16 ≤ s.V X → executeCycle s = none) := by
  rcases hlo with h | h
  · constructor
    · intro hv
      rw [executeCycle_eq s hpc, hhi, h, exec_caseE _ _ (by omega)]
      set s2 : Cpu := { s with breakIPF := false, opcode := (0xE0 + X) * 256 + 0x9E, pc := s.pc + 2 } with hs2
      rw [execE_9E_inb s2 ((0xE0 + X) * 256 + 0x9E) X (by omega)
        (by unfold opX; omega) hv]
      by_cases hk : s2.key (s2.V X) ≠ 0
      · rw [if_pos hk]
        exact ⟨_, rfl, by left; show s.pc + 2 + 2 = s.pc + 4; omega⟩
      · rw [if_neg hk]
        exact ⟨_, rfl, by right; rfl⟩
    · intro hv
      rw [executeCycle_eq s hpc, hhi, h, exec_caseE _ _ (by omega)]
      set s2 : Cpu := { s with breakIPF := false, opcode := (0xE0 + X) * 256 + 0x9E, pc := s.pc + 2 } with hs2
      rw [execE_9E_oob s2 ((0xE0 + X) * 256 + 0x9E) X (by omega)
        (by unfold opX; omega) hv]
  · constructor
    · intro hv
      rw [executeCycle_eq s hpc, hhi, h, exec_caseE _ _ (by omega)]
      set s2 : Cpu := { s with breakIPF := false, opcode := (0xE0 + X) * 256 + 0xA1, pc := s.pc + 2 } with hs2
      rw [execE_A1_inb s2 ((0xE0 + X) * 256 + 0xA1) X (by omega)
        (by unfold opX; omega) hv]
      by_cases hk : s2.key (s2.V X) = 0
      · rw [if_pos hk]
        exact ⟨_, rfl, by left; show s.pc + 2 + 2 = s.pc + 4; omega⟩
      · rw [if_neg hk]
        exact ⟨_, rfl, by right; rfl⟩
    · intro hv
      rw [executeCycle_eq s hpc, hhi, h, exec_caseE _ _ (by omega)]
      set s2 : Cpu := { s with breakIPF := false, opcode := (0xE0 + X) * 256 + 0xA1, pc := s.pc + 2 } with hs2
      rw [execE_A1_oob s2 ((0xE0 + X) * 256 + 0xA1) X (by omega)
        (by unfold opX; omega) hv]

/-- C10, witness: the in-bounds branch applied with V0 = 3 (key 3 held, so
EX9E skips), and the out-of-range branch applied with V0 = 16. -/
theorem C10_keybounds_witness :
    (∃ t, executeCycle sC10a = some t ∧
      (t.pc = sC10a.pc + 4 ∨ t.pc = sC10a.pc + 2)) ∧
      executeCycle sC10b = none :=
  ⟨(C10_keybounds sC10a 0 (by decide) (by decide) (by decide)
      (Or.inl (by decide))).1 (by decide),
    (C10_keybounds sC10b 0 (by decide) (by decide) (by decide)
      (Or.inl (by decide))).2 (by decide)⟩

/-- FX55 (F155) then FX65 (F165) at pc = 0x200 with I = 0x300, V0 = 7,
V1 = 9. -/
def sC9 : Cpu :=
  { base with
    memory := fun a => if a = 0x200 then 0xF1 else if a = 0x201 then 0x55 else
      if a = 0x202 then 0xF1 else if a = 0x203 then 0x65 else 0
    V := fun i => if i = 0 then 7 else if i = 1 then 9 else 0
    I := 0x300 }

/-- C9: from a state about to execute FX55 followed by FX65 with the same
X (the store staying inside memory and not overlapping the FX65
instruction bytes), executing FX55 leaves I advanced by exactly X + 1;
re-running with the same starting I (reset between the two steps, as the
claim fixes the same starting I for both) and executing FX65 also leaves
I advanced by exactly X + 1 and reproduces the original values of
V0..VX. -/
theorem C9_roundtrip (s : Cpu) (X : Nat) (hX : X < 16) (hpc : s.pc + 3 < 4096)
    (hb1 : s.memory s.pc = 0xF0 + X) (hb2 : s.memory (s.pc + 1) = 0x55)
    (hb3 : s.memory (s.pc + 2) = 0xF0 + X) (hb4 : s.memory (s.pc + 3) = 0x65)
    (hI : s.I + X < 4096)
    (hdisj : ∀ i : Fin 16, i.val ≤ X →
      s.I + i.val ≠ s.pc + 2 ∧ s.I + i.val ≠ s.pc + 3) :
    ∃ t1 t2, executeCycle s = some t1 ∧ t1.I = s.I + (X + 1) ∧
      executeCycle { t1 with I := s.I } = some t2 ∧ t2.I = s.I + (X + 1) ∧
      (∀ r, r ≤ X → t2.V r = s.V r) := by
  have hdisj2 : ∀ i, i ≤ X → s.I + i ≠ s.pc + 2 ∧ s.I + i ≠ s.pc + 3 :=
    fun i hi => hdisj ⟨i, by omega⟩ hi
  have hx : opX ((0xF0 + X) * 256 + 0x55) = X := by unfold opX; omega
  have hx65 : opX ((0xF0 + X) * 256 + 0x65) = X := by unfold opX; omega
  set s1 : Cpu := { s with breakIPF := false, opcode := (0xF0 + X) * 256 + 0x55, pc := s.pc + 2 } with hs1
  have e1 : executeCycle s = fx55Loop s1 0 (X + 1) := by
    rw [executeCycle_eq s (by omega), hb1, hb2, exec_caseF _ _ (by omega),
      execF_case55 _ _ (by omega), hx]
  obtain ⟨t1, ht1, ht1I, ht1pc, ht1V, ht1out, ht1in⟩ :=
    fx55Loop_spec (X + 1) 0 s1 (show s.I + (X + 1) ≤ 4096 by omega)
  have hout2 : s.pc + 2 < s1.I ∨ s1.I + (X + 1) ≤ s.pc + 2 := by
    have hs1I : s1.I = s.I := rfl
    by_contra hcon
    push_neg at hcon
    obtain ⟨ha, hb⟩ := hcon
    rw [hs1I] at ha hb
    have := (hdisj2 (s.pc + 2 - s.I) (by omega)).1
    omega
  have hout3 : s.pc + 3 < s1.I ∨ s1.I + (X + 1) ≤ s.pc + 3 := by
    have hs1I : s1.I = s.I := rfl
    by_contra hcon
    push_neg at hcon
    obtain ⟨ha, hb⟩ := hcon
    rw [hs1I] at ha hb
    have := (hdisj2 (s.pc + 3 - s.I) (by omega)).2
    omega
  have hm2 : t1.memory (s.pc + 2) = 0xF0 + X := by
    rw [ht1out (s.pc + 2) hout2]
    exact hb3
  have hm3 : t1.memory (s.pc + 3) = 0x65 := by
    rw [ht1out (s.pc + 3) hout3]
    exact hb4
  set u : Cpu := { t1 with I := s.I } with hu
  have hupc : u.pc = s.pc + 2 := ht1pc
  have humem : u.memory = t1.memory := rfl
  have hum1 : u.memory u.pc = 0xF0 + X := by
    rw [humem, hupc]
    exact hm2
  have hum2 : u.memory (u.pc + 1) = 0x65 := by
    rw [humem, hupc]
    have he : s.pc + 2 + 1 = s.pc + 3 := by omega
    rw [he]
    exact hm3
  set u2 : Cpu := { u with breakIPF := false, opcode := (0xF0 + X) * 256 + 0x65, pc := u.pc + 2 } with hu2
  have e2 : executeCycle u = fx65Loop u2 0 (X + 1) := by
    rw [executeCycle_eq u (by rw [hupc]; omega), hum1, hum2,
      exec_caseF _ _ (by omega), execF_case65 _ _ (by omega), hx65]
  obtain ⟨t2, ht2, ht2I, ht2pc, ht2mem, ht2low, ht2in⟩ :=
    fx65Loop_spec (X + 1) 0 u2 (show s.I + (X + 1) ≤ 4096 by omega)
  refine ⟨t1, t2, e1.trans ht1, ht1I, e2.trans ht2, ht2I, ?_⟩
  intro r hr
  have h0r : 0 + r = r := by omega
  have ha := ht2in r (by omega)
  rw [h0r] at ha
  rw [ha]
  have hb := ht1in r (by omega)
  rw [h0r] at hb
  exact hb

/-- C9, witness: the round trip applied at the concrete state with X = 1,
I = 0x300 and V0 = 7, V1 = 9. -/
theorem C9_roundtrip_witness :
    ∃ t1 t2, executeCycle sC9 = some t1 ∧ t1.I = sC9.I + (1 + 1) ∧
      executeCycle { t1 with I := sC9.I } = some t2 ∧ t2.I = sC9.I + (1 + 1) ∧
      (∀ r, r ≤ 1 → t2.V r = sC9.V r) :=
  C9_roundtrip sC9 1 (by decide) (by decide) (by decide) (by decide) (by decide)
    (by decide) (by decide) (by decide)

end Chip8
